import Mathlib

/-!
Verification of the bridge reconciliation engine of vyos-1x
(src/python/vyos/ifconfig/bridge.py, class BridgeIf).

The embedding models one bridge device.  The registry `sysfs_set`, the command
set `add_port`/`del_port`, and the reconciliation pass `update` are translated
from the source file.  The collaborators that live outside src/ (the base
class Interface.set_interface and set_admin_state, the validators in
vyos.validate, the address-flush helper, and the STP per-port setters of
vyos/ifconfig/stp.py) are modelled from the specification, as flagged on each
definition.

State of a device is a `DeviceState`: the bridge parameter store, the per-port
store, the attached member set, and the admin-state reference count together
with the kernel admin bit.  A reconciliation pass additionally emits a trace
of operations (`Op`), recording property-store writes, per-port writes,
address flushes, port attach/detach commands and the final admin-state call.
-/

namespace VyosBridge

/-- A raw configuration value as handed to a setter: either something that
Python's int() parses to an integer, or a non-integer token. -/
inductive RawVal where
  | intLike (n : Int)
  | nonInt (s : String)
deriving DecidableEq, Repr

/-- The bridge-level parameters of `BridgeIf._sysfs_set` (bridge.py lines 46-79). -/
inductive Param where
  | ageing_time
  | forward_delay
  | hello_time
  | max_age
  | priority
  | stp
  | multicast_querier
deriving DecidableEq, Repr

/-- The per-port parameters contributed by the STP mixin (vyos/ifconfig/stp.py). -/
inductive PortParam where
  | path_cost
  | path_priority
deriving DecidableEq, Repr

/-- The two validators referenced by the registry. -/
inductive Validator where
  | positive
  | boolean
deriving DecidableEq, Repr

/-- Modelled from the spec: `vyos.validate.assert_positive` (not under src/);
the spec calls it a positive-integer validator, so it accepts exactly the
integer-parsing inputs whose value is strictly positive. -/
def assert_positive : RawVal → Bool
  | RawVal.intLike n => decide (0 < n)
  | RawVal.nonInt _ => false

/-- Modelled from the spec: `vyos.validate.assert_boolean` (not under src/);
a boolean validator accepting exactly the integer values 0 and 1. -/
def assert_boolean : RawVal → Bool
  | RawVal.intLike n => decide (n = 0 ∨ n = 1)
  | RawVal.nonInt _ => false

def runValidator : Validator → RawVal → Bool
  | Validator.positive, v => assert_positive v
  | Validator.boolean, v => assert_boolean v

/-- One entry of the `_sysfs_set` registry: a validator, a unit converter
(identity when the source entry has no convert key) and a storage location. -/
structure SysfsDecl where
  validate : Validator
  convert : Int → Int
  location : String

/-- `BridgeIf._sysfs_set` (bridge.py lines 46-79): validators, seconds to
centiseconds converters, and sysfs storage locations. -/
def sysfs_set : Param → SysfsDecl
  | Param.ageing_time =>
      ⟨Validator.positive, (fun t => t * 100), ("/sys/class/net/{ifname}/bridge/ageing_time")⟩
  | Param.forward_delay =>
      ⟨Validator.positive, (fun t => t * 100), ("/sys/class/net/{ifname}/bridge/forward_delay")⟩
  | Param.hello_time =>
      ⟨Validator.positive, (fun t => t * 100), ("/sys/class/net/{ifname}/bridge/hello_time")⟩
  | Param.max_age =>
      ⟨Validator.positive, (fun t => t * 100), ("/sys/class/net/{ifname}/bridge/max_age")⟩
  | Param.priority =>
      ⟨Validator.positive, (fun t => t), ("/sys/class/net/{ifname}/bridge/priority")⟩
  | Param.stp =>
      ⟨Validator.boolean, (fun t => t), ("/sys/class/net/{ifname}/bridge/stp_state")⟩
  | Param.multicast_querier =>
      ⟨Validator.boolean, (fun t => t), ("/sys/class/net/{ifname}/bridge/multicast_querier")⟩

/-- Per-port registry entry of the STP mixin. -/
structure BrportDecl where
  validate : Validator
  location : String

/-- Modelled from the spec: the per-port cost/priority registry of
vyos/ifconfig/stp.py (not under src/); spec section 4.3 requires a positivity
validator and a per-port storage location. -/
def stp_sysfs_set : PortParam → BrportDecl
  | PortParam.path_cost =>
      ⟨Validator.positive, ("/sys/class/net/{ifname}/brport/path_cost")⟩
  | PortParam.path_priority =>
      ⟨Validator.positive, ("/sys/class/net/{ifname}/brport/priority")⟩

/-- `BridgeIf._command_set` shell command template for add_port (bridge.py line 83). -/
def add_port_shellcmd : String := "ip link set dev {value} master {ifname}"

/-- `BridgeIf._command_set` shell command template for del_port (bridge.py line 86). -/
def del_port_shellcmd : String := "ip link set dev {value} nomaster"

/-- Direction argument of set_admin_state. -/
inductive AdminDir where
  | up
  | down
deriving DecidableEq, Repr

/-- One operation emitted towards the external collaborators during a pass:
a property-store write, a per-port property write, an address flush, a port
attach/detach command, or the final admin-state call. -/
inductive Op where
  | write (location : String) (value : Int)
  | portWrite (port : String) (pp : PortParam) (value : Int)
  | flushAddrs (port : String)
  | attachPort (port : String)
  | detachPort (port : String)
  | adminSet (dir : AdminDir)
deriving DecidableEq, Repr

/-- Observable state of one bridge device: the bridge parameter store, the
per-port parameter store, the attached member ports, and the admin-state
reference count with the kernel admin bit. -/
structure DeviceState where
  store : Param → Option Int
  portStore : String → PortParam → Option Int
  members : List String
  adminCount : Nat
  kernelUp : Bool

/-- Errors a setter can raise (spec section 7: InvalidParameter). -/
inductive SetError where
  | invalidParameter (p : Param) (v : RawVal)
  | invalidPortParameter (pp : PortParam) (v : RawVal)
deriving DecidableEq, Repr

def writeStore (st : DeviceState) (p : Param) (w : Int) : DeviceState :=
  { st with store := fun q => if q = p then some w else st.store q }

def writePortStore (st : DeviceState) (port : String) (pp : PortParam) (w : Int) : DeviceState :=
  { st with portStore := fun q qp => if q = port ∧ qp = pp then some w else st.portStore q qp }

/-- Modelled from the spec: `Interface.set_interface` for sysfs-backed
parameters (vyos/ifconfig/interface.py is not under src/).  Spec section 4.2:
an absent value is a no-op; otherwise the registry validator runs first
(failure raises InvalidParameter and nothing reaches the store, which also
covers the int() conversion failure on non-integer input), then the registry
converter runs, then the converted value is written to the registry location.
The bridge setters set_ageing_time .. set_multicast_querier (bridge.py lines
91-168) are direct wrappers of this call. -/
def set_interface (st : DeviceState) (p : Param) (v : Option RawVal) :
    Except SetError (DeviceState × List Op) :=
  match v with
  | Option.none => Except.ok (st, [])
  | some raw =>
    match raw with
    | RawVal.intLike n =>
      if runValidator (sysfs_set p).validate raw then
        Except.ok (writeStore st p ((sysfs_set p).convert n),
          [Op.write (sysfs_set p).location ((sysfs_set p).convert n)])
      else Except.error (SetError.invalidParameter p raw)
    | RawVal.nonInt _ => Except.error (SetError.invalidParameter p raw)

/-- `BridgeIf.add_port` (bridge.py lines 170-179): runs the attach command;
the kernel effect is that the port ends up attached (spec section 4.2:
attach of an already attached port leaves membership unchanged). -/
def add_port (st : DeviceState) (port : String) : DeviceState × List Op :=
  ({ st with members := if port ∈ st.members then st.members else st.members ++ [port] },
   [Op.attachPort port])

/-- `BridgeIf.del_port` (bridge.py lines 181-189): runs the detach command;
detaching a port that is not attached is treated as already satisfied. -/
def del_port (st : DeviceState) (port : String) : DeviceState × List Op :=
  ({ st with members := st.members.filter (fun q => q ≠ port) },
   [Op.detachPort port])

/-- Modelled from the spec: the address-flush collaborator
`Interface(interface).flush_addrs()` (not under src/); spec section 6: it
flushes the addresses of the named port, with no effect on the bridge
device state tracked here. -/
def flush_addrs (st : DeviceState) (port : String) : DeviceState × List Op :=
  (st, [Op.flushAddrs port])

/-- Modelled from the spec: `Interface.set_admin_state` (not under src/).
Spec section 4.2: up increments the reference count, down decrements it and
never goes below 0; the kernel admin bit changes only on a transition of the
count from 0 to positive (brought up) or from positive to 0 (brought down).
The emitted operation records the admin-state call made by the pass. -/
def set_admin_state (st : DeviceState) (dir : AdminDir) : DeviceState × List Op :=
  match dir with
  | AdminDir.up =>
    ({ st with adminCount := st.adminCount + 1,
               kernelUp := if st.adminCount = 0 then true else st.kernelUp },
     [Op.adminSet AdminDir.up])
  | AdminDir.down =>
    ({ st with adminCount := st.adminCount - 1,
               kernelUp := if st.adminCount = 1 then false else st.kernelUp },
     [Op.adminSet AdminDir.down])

/-- Modelled from the spec: the per-port setters grafted by
`STP.enable(BridgeIf)` (vyos/ifconfig/stp.py is not under src/).  Spec
section 4.3: no-op when the value is absent, positivity validation, write to
the per-port location keyed by the port. -/
def set_path (st : DeviceState) (port : String) (pp : PortParam) (v : Option RawVal) :
    Except SetError (DeviceState × List Op) :=
  match v with
  | Option.none => Except.ok (st, [])
  | some raw =>
    match raw with
    | RawVal.intLike n =>
      if runValidator (stp_sysfs_set pp).validate raw then
        Except.ok (writePortStore st port pp n, [Op.portWrite port pp n])
      else Except.error (SetError.invalidPortParameter pp raw)
    | RawVal.nonInt _ => Except.error (SetError.invalidPortParameter pp raw)

def set_path_cost (st : DeviceState) (port : String) (v : Option RawVal) :
    Except SetError (DeviceState × List Op) :=
  set_path st port PortParam.path_cost v

def set_path_priority (st : DeviceState) (port : String) (v : Option RawVal) :
    Except SetError (DeviceState × List Op) :=
  set_path st port PortParam.path_priority v

/-- Per-port section of the desired configuration:
`member.interface.<port>` with optional cost and priority. -/
structure PortConfig where
  cost : Option RawVal
  priority : Option RawVal
deriving DecidableEq, Repr

/-- The DesiredConfig consumed by `BridgeIf.update` (spec section 6): the
optional scalar keys, presence of the stp key, presence of a non-null
igmp.querier value, the member.interface_remove list, the member.interface
mapping in its iteration order, and presence of the disable key. -/
structure Config where
  aging : Option RawVal
  forwarding_delay : Option RawVal
  hello_time : Option RawVal
  max_age : Option RawVal
  priority : Option RawVal
  stp : Bool
  igmp_querier : Bool
  member_interface_remove : List String
  member_interface : List (String × PortConfig)
  disable : Bool
deriving DecidableEq, Repr

/-- The value passed to the stp / multicast_querier setter: the string one or
zero depending on key presence (bridge.py lines 221 and 226). -/
def boolKey (b : Bool) : RawVal := RawVal.intLike (if b then 1 else 0)

/-- The per-member body of the loop in `BridgeIf.update` (bridge.py lines
238-253): flush the member's addresses, enslave it, then apply path cost and
path priority from its port config. -/
def updateMember (st : DeviceState) (port : String) (pc : PortConfig) :
    Except SetError (DeviceState × List Op) :=
  let (st1, o1) := flush_addrs st port
  let (st2, o2) := add_port st1 port
  match set_path_cost st2 port pc.cost with
  | Except.error e => Except.error e
  | Except.ok (st3, o3) =>
    match set_path_priority st3 port pc.priority with
    | Except.error e => Except.error e
    | Except.ok (st4, o4) => Except.ok (st4, o1 ++ o2 ++ o3 ++ o4)

/-- The member.interface loop of `BridgeIf.update` (bridge.py lines 236-253). -/
def updateMembers (st : DeviceState) (ms : List (String × PortConfig)) :
    Except SetError (DeviceState × List Op) :=
  match ms with
  | [] => Except.ok (st, [])
  | (port, pc) :: rest =>
    match updateMember st port pc with
    | Except.error e => Except.error e
    | Except.ok (st1, o1) =>
      match updateMembers st1 rest with
      | Except.error e => Except.error e
      | Except.ok (st2, o2) => Except.ok (st2, o1 ++ o2)

/-- The member.interface_remove loop of `BridgeIf.update` (bridge.py lines
230-233). -/
def removeMembers (st : DeviceState) (ms : List String) : DeviceState × List Op :=
  match ms with
  | [] => (st, [])
  | port :: rest =>
    let (st1, o1) := del_port st port
    let (st2, o2) := removeMembers st1 rest
    (st2, o1 ++ o2)

/-- `BridgeIf.update` (bridge.py lines 191-263), the reconciliation pass:
scalar setters on the values of the aging, forwarding_delay, hello_time,
max_age and priority keys; the stp and multicast_querier setters on the
presence-derived one/zero value; the member removal loop; the member addition
loop; and finally set_admin_state, down when the disable key is present and
up otherwise.  The base-class `super().update(config)` call is outside the
reconciliation algorithm of spec section 4.4 and is modelled as the
identity. -/
def update (st : DeviceState) (config : Config) : Except SetError (DeviceState × List Op) :=
  match set_interface st Param.ageing_time config.aging with
  | Except.error e => Except.error e
  | Except.ok (st, o1) =>
  match set_interface st Param.forward_delay config.forwarding_delay with
  | Except.error e => Except.error e
  | Except.ok (st, o2) =>
  match set_interface st Param.hello_time config.hello_time with
  | Except.error e => Except.error e
  | Except.ok (st, o3) =>
  match set_interface st Param.max_age config.max_age with
  | Except.error e => Except.error e
  | Except.ok (st, o4) =>
  match set_interface st Param.priority config.priority with
  | Except.error e => Except.error e
  | Except.ok (st, o5) =>
  match set_interface st Param.stp (some (boolKey config.stp)) with
  | Except.error e => Except.error e
  | Except.ok (st, o6) =>
  match set_interface st Param.multicast_querier (some (boolKey config.igmp_querier)) with
  | Except.error e => Except.error e
  | Except.ok (st, o7) =>
  let (st, o8) := removeMembers st config.member_interface_remove
  match updateMembers st config.member_interface with
  | Except.error e => Except.error e
  | Except.ok (st, o9) =>
  let (st, o10) :=
    set_admin_state st (if config.disable then AdminDir.down else AdminDir.up)
  Except.ok (st, o1 ++ o2 ++ o3 ++ o4 ++ o5 ++ o6 ++ o7 ++ o8 ++ o9 ++ o10)

/-! ## Total characterization of the pass

`update` is re-expressed as a validity predicate `validConfig`, a total state
transformer `updateState` and a total operation trace `updateOps`; the
equivalence with `update` is proved in `update_ok_iff` below.  These are the
forms the claims are settled against. -/

def setOkState (st : DeviceState) (p : Param) (v : Option RawVal) : DeviceState :=
  match v with
  | some (RawVal.intLike n) => writeStore st p ((sysfs_set p).convert n)
  | _ => st

def setOps (p : Param) (v : Option RawVal) : List Op :=
  match v with
  | some (RawVal.intLike n) => [Op.write (sysfs_set p).location ((sysfs_set p).convert n)]
  | _ => []

def validOpt (vd : Validator) (v : Option RawVal) : Bool :=
  match v with
  | Option.none => true
  | some raw => runValidator vd raw

def setPathState (st : DeviceState) (port : String) (pp : PortParam) (v : Option RawVal) :
    DeviceState :=
  match v with
  | some (RawVal.intLike n) => writePortStore st port pp n
  | _ => st

def pathOps (port : String) (pp : PortParam) (v : Option RawVal) : List Op :=
  match v with
  | some (RawVal.intLike n) => [Op.portWrite port pp n]
  | _ => []

def memberEntryState (st : DeviceState) (port : String) (pc : PortConfig) : DeviceState :=
  setPathState (setPathState (add_port st port).1 port PortParam.path_cost pc.cost)
    port PortParam.path_priority pc.priority

def memberEntryOps (port : String) (pc : PortConfig) : List Op :=
  Op.flushAddrs port :: Op.attachPort port ::
    (pathOps port PortParam.path_cost pc.cost ++ pathOps port PortParam.path_priority pc.priority)

def memberState (st : DeviceState) (ms : List (String × PortConfig)) : DeviceState :=
  match ms with
  | [] => st
  | (port, pc) :: rest => memberState (memberEntryState st port pc) rest

def memberOps (ms : List (String × PortConfig)) : List Op :=
  match ms with
  | [] => []
  | (port, pc) :: rest => memberEntryOps port pc ++ memberOps rest

def removeState (st : DeviceState) (ms : List String) : DeviceState :=
  match ms with
  | [] => st
  | port :: rest => removeState (del_port st port).1 rest

def removeOps (ms : List String) : List Op := ms.map Op.detachPort

def adminState (st : DeviceState) (dir : AdminDir) : DeviceState := (set_admin_state st dir).1

def validMember (pc : PortConfig) : Bool :=
  validOpt (stp_sysfs_set PortParam.path_cost).validate pc.cost &&
  validOpt (stp_sysfs_set PortParam.path_priority).validate pc.priority

def validConfig (c : Config) : Bool :=
  validOpt (sysfs_set Param.ageing_time).validate c.aging &&
  validOpt (sysfs_set Param.forward_delay).validate c.forwarding_delay &&
  validOpt (sysfs_set Param.hello_time).validate c.hello_time &&
  validOpt (sysfs_set Param.max_age).validate c.max_age &&
  validOpt (sysfs_set Param.priority).validate c.priority &&
  c.member_interface.all (fun x => validMember x.2)

/-- The config value routed to each bridge-level parameter by the pass. -/
def scalarKey (c : Config) : Param → Option RawVal
  | Param.ageing_time => c.aging
  | Param.forward_delay => c.forwarding_delay
  | Param.hello_time => c.hello_time
  | Param.max_age => c.max_age
  | Param.priority => c.priority
  | Param.stp => some (boolKey c.stp)
  | Param.multicast_querier => some (boolKey c.igmp_querier)

def adminDir (c : Config) : AdminDir := if c.disable then AdminDir.down else AdminDir.up

def updateState (st : DeviceState) (c : Config) : DeviceState :=
  adminState
    (memberState
      (removeState
        (setOkState (setOkState (setOkState (setOkState (setOkState (setOkState (setOkState st
          Param.ageing_time c.aging)
          Param.forward_delay c.forwarding_delay)
          Param.hello_time c.hello_time)
          Param.max_age c.max_age)
          Param.priority c.priority)
          Param.stp (some (boolKey c.stp)))
          Param.multicast_querier (some (boolKey c.igmp_querier)))
        c.member_interface_remove)
      c.member_interface)
    (adminDir c)

def updateOps (c : Config) : List Op :=
  setOps Param.ageing_time c.aging ++ setOps Param.forward_delay c.forwarding_delay ++
  setOps Param.hello_time c.hello_time ++ setOps Param.max_age c.max_age ++
  setOps Param.priority c.priority ++ setOps Param.stp (some (boolKey c.stp)) ++
  setOps Param.multicast_querier (some (boolKey c.igmp_querier)) ++
  removeOps c.member_interface_remove ++ memberOps c.member_interface ++
  [Op.adminSet (adminDir c)]

/-- The per-port value an entry of member.interface supplies for a per-port
parameter, when present and integer-valued. -/
def entryVal (pc : PortConfig) : PortParam → Option Int
  | PortParam.path_cost =>
    match pc.cost with
    | some (RawVal.intLike n) => some n
    | _ => Option.none
  | PortParam.path_priority =>
    match pc.priority with
    | some (RawVal.intLike n) => some n
    | _ => Option.none

/-- Last-write-wins lookup of the per-port value the member loop stores for
(port, pp); later entries of the list override earlier ones. -/
def portVal (ms : List (String × PortConfig)) (port : String) (pp : PortParam) : Option Int :=
  match ms with
  | [] => Option.none
  | (q, pc) :: rest =>
    match portVal rest port pp with
    | some n => some n
    | Option.none => if q = port then entryVal pc pp else Option.none

def isAdminSet : Op → Bool
  | Op.adminSet _ => true
  | _ => false

/-- A non-positive or non-integer raw input (the inputs a positivity
validator must reject). -/
def nonPositiveInput : RawVal → Bool
  | RawVal.intLike n => decide (n ≤ 0)
  | RawVal.nonInt _ => true

/-- A fresh bridge device: empty stores, no members, reference count 0,
administratively down. -/
def emptyState : DeviceState :=
  ⟨(fun _ => Option.none), (fun _ _ => Option.none), [], 0, false⟩

/-- A device whose stored STP state is enabled. -/
def stpOnState : DeviceState :=
  { emptyState with store := fun p => if p = Param.stp then some 1 else Option.none }

/-- A device with two outstanding admin references, administratively up. -/
def countTwoState : DeviceState :=
  { emptyState with adminCount := 2, kernelUp := true }

/-- The empty DesiredConfig: every key absent. -/
def cfgEmpty : Config :=
  ⟨Option.none, Option.none, Option.none, Option.none, Option.none, false, false, [], [], false⟩

/-- The ordering-scenario DesiredConfig of the spec: forwarding_delay 15,
member eth0 with cost 100, and no disable key (stp absent as well). -/
def cfgScenario : Config :=
  { cfgEmpty with
    forwarding_delay := some (RawVal.intLike 15),
    member_interface := [(("eth0"), ⟨some (RawVal.intLike 100), Option.none⟩)] }

/-- A DesiredConfig whose only key is disable. -/
def cfgDisable : Config := { cfgEmpty with disable := true }

/-- A DesiredConfig that removes and re-adds the same port eth0. -/
def cfgReAdd : Config :=
  { cfgEmpty with
    member_interface_remove := [("eth0")],
    member_interface := [(("eth0"), ⟨Option.none, Option.none⟩)] }

/-! ## Per-step lemmas -/

theorem set_interface_of_valid (st : DeviceState) (p : Param) (v : Option RawVal)
    (h : validOpt (sysfs_set p).validate v = true) :
    set_interface st p v = Except.ok (setOkState st p v, setOps p v) := by
  cases v with
  | none => rfl
  | some raw =>
    cases raw with
    | intLike n =>
      simp only [validOpt] at h
      simp [set_interface, h, setOkState, setOps]
    | nonInt s =>
      exfalso
      cases hv : (sysfs_set p).validate <;>
        simp [validOpt, hv, runValidator, assert_positive, assert_boolean] at h

theorem set_interface_of_invalid (st : DeviceState) (p : Param) (v : Option RawVal)
    (h : validOpt (sysfs_set p).validate v = false) :
    ∃ raw, v = some raw ∧ set_interface st p v = Except.error (SetError.invalidParameter p raw) := by
  cases v with
  | none => simp [validOpt] at h
  | some raw =>
    refine ⟨raw, rfl, ?_⟩
    cases raw with
    | intLike n =>
      simp only [validOpt] at h
      simp [set_interface, h]
    | nonInt s => rfl

theorem set_interface_ok_iff (st : DeviceState) (p : Param) (v : Option RawVal)
    (r : DeviceState × List Op) :
    set_interface st p v = Except.ok r ↔
      validOpt (sysfs_set p).validate v = true ∧ r = (setOkState st p v, setOps p v) := by
  cases hv : validOpt (sysfs_set p).validate v with
  | true =>
    rw [set_interface_of_valid st p v hv]
    simp [eq_comm]
  | false =>
    obtain ⟨raw, -, he⟩ := set_interface_of_invalid st p v hv
    rw [he]
    simp

theorem set_path_of_valid (st : DeviceState) (port : String) (pp : PortParam)
    (v : Option RawVal) (h : validOpt (stp_sysfs_set pp).validate v = true) :
    set_path st port pp v = Except.ok (setPathState st port pp v, pathOps port pp v) := by
  cases v with
  | none => rfl
  | some raw =>
    cases raw with
    | intLike n =>
      simp only [validOpt] at h
      simp [set_path, h, setPathState, pathOps]
    | nonInt s =>
      exfalso
      cases hv : (stp_sysfs_set pp).validate <;>
        simp [validOpt, hv, runValidator, assert_positive, assert_boolean] at h

theorem set_path_of_invalid (st : DeviceState) (port : String) (pp : PortParam)
    (v : Option RawVal) (h : validOpt (stp_sysfs_set pp).validate v = false) :
    ∃ raw, v = some raw ∧
      set_path st port pp v = Except.error (SetError.invalidPortParameter pp raw) := by
  cases v with
  | none => simp [validOpt] at h
  | some raw =>
    refine ⟨raw, rfl, ?_⟩
    cases raw with
    | intLike n =>
      simp only [validOpt] at h
      simp [set_path, h]
    | nonInt s => rfl

theorem set_path_ok_iff (st : DeviceState) (port : String) (pp : PortParam)
    (v : Option RawVal) (r : DeviceState × List Op) :
    set_path st port pp v = Except.ok r ↔
      validOpt (stp_sysfs_set pp).validate v = true ∧ r = (setPathState st port pp v, pathOps port pp v) := by
  cases hv : validOpt (stp_sysfs_set pp).validate v with
  | true =>
    rw [set_path_of_valid st port pp v hv]
    simp [eq_comm]
  | false =>
    obtain ⟨raw, -, he⟩ := set_path_of_invalid st port pp v hv
    rw [he]
    simp

theorem removeMembers_eq (ms : List String) : ∀ st : DeviceState,
    removeMembers st ms = (removeState st ms, removeOps ms) := by
  induction ms with
  | nil => intro st; rfl
  | cons port rest ih =>
    intro st
    simp [removeMembers, removeState, removeOps, ih, del_port, List.map]

theorem set_admin_state_eq (st : DeviceState) (dir : AdminDir) :
    set_admin_state st dir = (adminState st dir, [Op.adminSet dir]) := by
  cases dir <;> rfl

theorem updateMember_ok_iff (st : DeviceState) (port : String) (pc : PortConfig)
    (r : DeviceState × List Op) :
    updateMember st port pc = Except.ok r ↔
      validMember pc = true ∧ r = (memberEntryState st port pc, memberEntryOps port pc) := by
  have hu : updateMember st port pc =
      match set_path (add_port st port).1 port PortParam.path_cost pc.cost with
      | Except.error e => Except.error e
      | Except.ok (st3, o3) =>
        match set_path st3 port PortParam.path_priority pc.priority with
        | Except.error e => Except.error e
        | Except.ok (st4, o4) =>
          Except.ok (st4, [Op.flushAddrs port] ++ [Op.attachPort port] ++ o3 ++ o4) := rfl
  rw [hu]
  cases hc : validOpt (stp_sysfs_set PortParam.path_cost).validate pc.cost with
  | false =>
    obtain ⟨raw, -, he⟩ :=
      set_path_of_invalid (add_port st port).1 port PortParam.path_cost pc.cost hc
    simp only [he]
    simp [validMember, hc]
  | true =>
    simp only [set_path_of_valid (add_port st port).1 port PortParam.path_cost pc.cost hc]
    cases hp : validOpt (stp_sysfs_set PortParam.path_priority).validate pc.priority with
    | false =>
      obtain ⟨raw, -, he⟩ := set_path_of_invalid
        (setPathState (add_port st port).1 port PortParam.path_cost pc.cost) port
        PortParam.path_priority pc.priority hp
      simp only [he]
      simp [validMember, hc, hp]
    | true =>
      simp only [set_path_of_valid
        (setPathState (add_port st port).1 port PortParam.path_cost pc.cost) port
        PortParam.path_priority pc.priority hp]
      simp [validMember, hc, hp, memberEntryState, memberEntryOps, eq_comm]

theorem updateMembers_ok_iff (ms : List (String × PortConfig)) :
    ∀ (st : DeviceState) (r : DeviceState × List Op),
    updateMembers st ms = Except.ok r ↔
      ms.all (fun x => validMember x.2) = true ∧ r = (memberState st ms, memberOps ms) := by
  induction ms with
  | nil =>
    intro st r
    simp [updateMembers, memberState, memberOps, eq_comm]
  | cons hd rest ih =>
    intro st r
    obtain ⟨port, pc⟩ := hd
    constructor
    · intro h
      simp only [updateMembers] at h
      cases h1 : updateMember st port pc with
      | error e => simp only [h1] at h; exact Except.noConfusion h
      | ok r1 =>
        obtain ⟨st1, o1⟩ := r1
        simp only [h1] at h
        obtain ⟨hm1, hr1⟩ := (updateMember_ok_iff st port pc (st1, o1)).mp h1
        injection hr1 with hst1 ho1
        subst hst1
        subst ho1
        cases h2 : updateMembers (memberEntryState st port pc) rest with
        | error e => simp only [h2] at h; exact Except.noConfusion h
        | ok r2 =>
          obtain ⟨st2, o2⟩ := r2
          simp only [h2] at h
          obtain ⟨hm2, hr2⟩ := (ih (memberEntryState st port pc) (st2, o2)).mp h2
          injection hr2 with hst2 ho2
          simp only [Except.ok.injEq] at h
          refine ⟨by simp [List.all_cons, hm1, hm2], ?_⟩
          rw [← h, hst2, ho2]
          simp [memberState, memberOps]
    · rintro ⟨hall, hr⟩
      simp only [List.all_cons, Bool.and_eq_true] at hall
      have e1 : updateMember st port pc =
          Except.ok (memberEntryState st port pc, memberEntryOps port pc) :=
        (updateMember_ok_iff st port pc _).mpr ⟨hall.1, rfl⟩
      have e2 : updateMembers (memberEntryState st port pc) rest =
          Except.ok (memberState (memberEntryState st port pc) rest, memberOps rest) :=
        (ih (memberEntryState st port pc) _).mpr ⟨hall.2, rfl⟩
      simp only [updateMembers, e1, e2, hr]
      simp [memberState, memberOps]

theorem updateMembers_of_valid (st : DeviceState) (ms : List (String × PortConfig))
    (h : ms.all (fun x => validMember x.2) = true) :
    updateMembers st ms = Except.ok (memberState st ms, memberOps ms) :=
  (updateMembers_ok_iff ms st _).mpr ⟨h, rfl⟩

theorem boolKey_valid_bool (b : Bool) : validOpt Validator.boolean (some (boolKey b)) = true := by
  cases b <;> rfl

/-- Soundness half of the characterization: on a valid config the pass
succeeds and produces exactly the total state/trace model. -/
theorem update_of_valid (st : DeviceState) (c : Config) (h : validConfig c = true) :
    update st c = Except.ok (updateState st c, updateOps c) := by
  simp only [validConfig, Bool.and_eq_true] at h
  obtain ⟨⟨⟨⟨⟨h1, h2⟩, h3⟩, h4⟩, h5⟩, hm⟩ := h
  have hb1 : validOpt (sysfs_set Param.stp).validate (some (boolKey c.stp)) = true :=
    boolKey_valid_bool c.stp
  have hb2 : validOpt (sysfs_set Param.multicast_querier).validate
      (some (boolKey c.igmp_querier)) = true :=
    boolKey_valid_bool c.igmp_querier
  simp only [update, set_interface_of_valid, h1, h2, h3, h4, h5, hb1, hb2,
    removeMembers_eq, updateMembers_of_valid, hm, set_admin_state_eq]
  rfl

/-- Completeness half: a successful pass presupposes a valid config. -/
theorem update_ok_valid (st : DeviceState) (c : Config) (r : DeviceState × List Op)
    (h : update st c = Except.ok r) : validConfig c = true := by
  simp only [update] at h
  cases h1 : set_interface st Param.ageing_time c.aging with
  | error e => simp only [h1] at h; exact Except.noConfusion h
  | ok r1 =>
    obtain ⟨s1, o1⟩ := r1
    simp only [h1] at h
    cases h2 : set_interface s1 Param.forward_delay c.forwarding_delay with
    | error e => simp only [h2] at h; exact Except.noConfusion h
    | ok r2 =>
      obtain ⟨s2, o2⟩ := r2
      simp only [h2] at h
      cases h3 : set_interface s2 Param.hello_time c.hello_time with
      | error e => simp only [h3] at h; exact Except.noConfusion h
      | ok r3 =>
        obtain ⟨s3, o3⟩ := r3
        simp only [h3] at h
        cases h4 : set_interface s3 Param.max_age c.max_age with
        | error e => simp only [h4] at h; exact Except.noConfusion h
        | ok r4 =>
          obtain ⟨s4, o4⟩ := r4
          simp only [h4] at h
          cases h5 : set_interface s4 Param.priority c.priority with
          | error e => simp only [h5] at h; exact Except.noConfusion h
          | ok r5 =>
            obtain ⟨s5, o5⟩ := r5
            simp only [h5] at h
            cases h6 : set_interface s5 Param.stp (some (boolKey c.stp)) with
            | error e => simp only [h6] at h; exact Except.noConfusion h
            | ok r6 =>
              obtain ⟨s6, o6⟩ := r6
              simp only [h6] at h
              cases h7 : set_interface s6 Param.multicast_querier
                  (some (boolKey c.igmp_querier)) with
              | error e => simp only [h7] at h; exact Except.noConfusion h
              | ok r7 =>
                obtain ⟨s7, o7⟩ := r7
                simp only [h7, removeMembers_eq] at h
                cases h9 : updateMembers (removeState s7 c.member_interface_remove)
                    c.member_interface with
                | error e => simp only [h9] at h; exact Except.noConfusion h
                | ok r9 =>
                  simp only [validConfig, Bool.and_eq_true]
                  exact ⟨⟨⟨⟨⟨(set_interface_ok_iff st Param.ageing_time c.aging _ |>.mp h1).1,
                    (set_interface_ok_iff s1 Param.forward_delay c.forwarding_delay _ |>.mp h2).1⟩,
                    (set_interface_ok_iff s2 Param.hello_time c.hello_time _ |>.mp h3).1⟩,
                    (set_interface_ok_iff s3 Param.max_age c.max_age _ |>.mp h4).1⟩,
                    (set_interface_ok_iff s4 Param.priority c.priority _ |>.mp h5).1⟩,
                    (updateMembers_ok_iff c.member_interface _ _ |>.mp h9).1⟩

/-- Master characterization of the reconciliation pass: `update` succeeds
exactly on valid configs, and its final state and trace are `updateState`
and `updateOps`. -/
theorem update_ok_iff (st : DeviceState) (c : Config) (r : DeviceState × List Op) :
    update st c = Except.ok r ↔
      validConfig c = true ∧ r = (updateState st c, updateOps c) := by
  constructor
  · intro h
    have hv := update_ok_valid st c r h
    have he := update_of_valid st c hv
    rw [h] at he
    exact ⟨hv, (Except.ok.injEq _ _).mp he⟩
  · rintro ⟨hv, hr⟩
    rw [hr]
    exact update_of_valid st c hv

/-! ## Frame lemmas: which phase touches which component of the state -/

theorem setOkState_store_self (st : DeviceState) (p : Param) (v : Option RawVal) :
    (setOkState st p v).store p =
      match v with
      | some (RawVal.intLike n) => some ((sysfs_set p).convert n)
      | _ => st.store p := by
  cases v with
  | none => rfl
  | some raw => cases raw with
    | intLike n => simp [setOkState, writeStore]
    | nonInt s => rfl

theorem setOkState_store_ne (st : DeviceState) (p : Param) (v : Option RawVal)
    (q : Param) (h : q ≠ p) : (setOkState st p v).store q = st.store q := by
  cases v with
  | none => rfl
  | some raw => cases raw with
    | intLike n => simp [setOkState, writeStore, h]
    | nonInt s => rfl

theorem setOkState_members (st : DeviceState) (p : Param) (v : Option RawVal) :
    (setOkState st p v).members = st.members := by
  cases v with
  | none => rfl
  | some raw => cases raw <;> rfl

theorem setOkState_portStore (st : DeviceState) (p : Param) (v : Option RawVal) :
    (setOkState st p v).portStore = st.portStore := by
  cases v with
  | none => rfl
  | some raw => cases raw <;> rfl

theorem setOkState_adminCount (st : DeviceState) (p : Param) (v : Option RawVal) :
    (setOkState st p v).adminCount = st.adminCount := by
  cases v with
  | none => rfl
  | some raw => cases raw <;> rfl

theorem setOkState_kernelUp (st : DeviceState) (p : Param) (v : Option RawVal) :
    (setOkState st p v).kernelUp = st.kernelUp := by
  cases v with
  | none => rfl
  | some raw => cases raw <;> rfl

theorem setPathState_members (st : DeviceState) (port : String) (pp : PortParam)
    (v : Option RawVal) : (setPathState st port pp v).members = st.members := by
  cases v with
  | none => rfl
  | some raw => cases raw <;> rfl

theorem setPathState_store (st : DeviceState) (port : String) (pp : PortParam)
    (v : Option RawVal) : (setPathState st port pp v).store = st.store := by
  cases v with
  | none => rfl
  | some raw => cases raw <;> rfl

theorem setPathState_adminCount (st : DeviceState) (port : String) (pp : PortParam)
    (v : Option RawVal) : (setPathState st port pp v).adminCount = st.adminCount := by
  cases v with
  | none => rfl
  | some raw => cases raw <;> rfl

theorem setPathState_kernelUp (st : DeviceState) (port : String) (pp : PortParam)
    (v : Option RawVal) : (setPathState st port pp v).kernelUp = st.kernelUp := by
  cases v with
  | none => rfl
  | some raw => cases raw <;> rfl

theorem setPathState_get (st : DeviceState) (port : String) (pp : PortParam)
    (v : Option RawVal) (q : String) (qp : PortParam) :
    (setPathState st port pp v).portStore q qp =
      if q = port ∧ qp = pp then
        (match v with
         | some (RawVal.intLike n) => some n
         | _ => st.portStore q qp)
      else st.portStore q qp := by
  cases v with
  | none => simp [setPathState]
  | some raw => cases raw with
    | intLike n => simp [setPathState, writePortStore]
    | nonInt s => simp [setPathState]

theorem memberEntryState_members (st : DeviceState) (port : String) (pc : PortConfig)
    (q : String) :
    q ∈ (memberEntryState st port pc).members ↔ q = port ∨ q ∈ st.members := by
  simp only [memberEntryState, setPathState_members]
  by_cases h : port ∈ st.members
  · simp only [add_port, h, if_pos]
    exact ⟨Or.inr, fun hq => hq.elim (fun e => e ▸ h) id⟩
  · simp [add_port, h, List.mem_append, or_comm]

theorem memberEntryState_store (st : DeviceState) (port : String) (pc : PortConfig) :
    (memberEntryState st port pc).store = st.store := by
  simp [memberEntryState, setPathState_store, add_port]

theorem memberEntryState_adminCount (st : DeviceState) (port : String) (pc : PortConfig) :
    (memberEntryState st port pc).adminCount = st.adminCount := by
  simp [memberEntryState, setPathState_adminCount, add_port]

theorem memberEntryState_kernelUp (st : DeviceState) (port : String) (pc : PortConfig) :
    (memberEntryState st port pc).kernelUp = st.kernelUp := by
  simp [memberEntryState, setPathState_kernelUp, add_port]

theorem memberEntryState_get (st : DeviceState) (port : String) (pc : PortConfig)
    (q : String) (qp : PortParam) :
    (memberEntryState st port pc).portStore q qp =
      if q = port then
        (match entryVal pc qp with
         | some n => some n
         | Option.none => st.portStore q qp)
      else st.portStore q qp := by
  have hap : (add_port st port).1.portStore = st.portStore := rfl
  by_cases hq : q = port
  · subst hq
    cases qp with
    | path_cost =>
      simp only [memberEntryState, setPathState_get, hap, entryVal]
      cases hc : pc.cost with
      | none => simp
      | some raw => cases raw <;> simp
    | path_priority =>
      simp only [memberEntryState, setPathState_get, hap, entryVal]
      cases hp : pc.priority with
      | none => simp
      | some raw => cases raw <;> simp
  · simp [memberEntryState, setPathState_get, hap, hq]

theorem memberState_store (ms : List (String × PortConfig)) :
    ∀ st : DeviceState, (memberState st ms).store = st.store := by
  induction ms with
  | nil => intro st; rfl
  | cons hd rest ih =>
    intro st
    obtain ⟨port, pc⟩ := hd
    simp [memberState, ih, memberEntryState_store]

theorem memberState_adminCount (ms : List (String × PortConfig)) :
    ∀ st : DeviceState, (memberState st ms).adminCount = st.adminCount := by
  induction ms with
  | nil => intro st; rfl
  | cons hd rest ih =>
    intro st
    obtain ⟨port, pc⟩ := hd
    simp [memberState, ih, memberEntryState_adminCount]

theorem memberState_kernelUp (ms : List (String × PortConfig)) :
    ∀ st : DeviceState, (memberState st ms).kernelUp = st.kernelUp := by
  induction ms with
  | nil => intro st; rfl
  | cons hd rest ih =>
    intro st
    obtain ⟨port, pc⟩ := hd
    simp [memberState, ih, memberEntryState_kernelUp]

theorem memberState_mem (ms : List (String × PortConfig)) :
    ∀ (st : DeviceState) (q : String),
    q ∈ (memberState st ms).members ↔ q ∈ ms.map Prod.fst ∨ q ∈ st.members := by
  induction ms with
  | nil => intro st q; simp [memberState]
  | cons hd rest ih =>
    intro st q
    obtain ⟨port, pc⟩ := hd
    simp only [memberState, ih, memberEntryState_members, List.map_cons, List.mem_cons]
    tauto

theorem memberState_get (ms : List (String × PortConfig)) :
    ∀ (st : DeviceState) (q : String) (qp : PortParam),
    (memberState st ms).portStore q qp =
      match portVal ms q qp with
      | some n => some n
      | Option.none => st.portStore q qp := by
  induction ms with
  | nil => intro st q qp; rfl
  | cons hd rest ih =>
    intro st q qp
    obtain ⟨port, pc⟩ := hd
    simp only [memberState, ih, portVal]
    cases hrest : portVal rest q qp with
    | some n => simp
    | none =>
      simp only [memberEntryState_get]
      by_cases hq : q = port
      · subst hq
        simp only [if_pos rfl]
        cases hv : entryVal pc qp <;> simp
      · have hq2 : ¬ port = q := fun e => hq e.symm
        simp [hq, hq2]

theorem del_port_mem (st : DeviceState) (port : String) (q : String) :
    q ∈ (del_port st port).1.members ↔ q ∈ st.members ∧ q ≠ port := by
  simp [del_port, List.mem_filter]

theorem removeState_store (ms : List String) :
    ∀ st : DeviceState, (removeState st ms).store = st.store := by
  induction ms with
  | nil => intro st; rfl
  | cons port rest ih => intro st; simp [removeState, ih, del_port]

theorem removeState_portStore (ms : List String) :
    ∀ st : DeviceState, (removeState st ms).portStore = st.portStore := by
  induction ms with
  | nil => intro st; rfl
  | cons port rest ih => intro st; simp [removeState, ih, del_port]

theorem removeState_adminCount (ms : List String) :
    ∀ st : DeviceState, (removeState st ms).adminCount = st.adminCount := by
  induction ms with
  | nil => intro st; rfl
  | cons port rest ih => intro st; simp [removeState, ih, del_port]

theorem removeState_kernelUp (ms : List String) :
    ∀ st : DeviceState, (removeState st ms).kernelUp = st.kernelUp := by
  induction ms with
  | nil => intro st; rfl
  | cons port rest ih => intro st; simp [removeState, ih, del_port]

theorem removeState_mem (ms : List String) :
    ∀ (st : DeviceState) (q : String),
    q ∈ (removeState st ms).members ↔ q ∈ st.members ∧ q ∉ ms := by
  induction ms with
  | nil => intro st q; simp [removeState]
  | cons port rest ih =>
    intro st q
    simp only [removeState, ih, del_port_mem, List.mem_cons]
    tauto

theorem adminState_store (st : DeviceState) (dir : AdminDir) :
    (adminState st dir).store = st.store := by
  cases dir <;> rfl

theorem adminState_portStore (st : DeviceState) (dir : AdminDir) :
    (adminState st dir).portStore = st.portStore := by
  cases dir <;> rfl

theorem adminState_members (st : DeviceState) (dir : AdminDir) :
    (adminState st dir).members = st.members := by
  cases dir <;> rfl

/-! ## Characterization of the final state of a pass -/

theorem updateState_store (st : DeviceState) (c : Config) (p : Param) :
    (updateState st c).store p =
      match scalarKey c p with
      | some (RawVal.intLike n) => some ((sysfs_set p).convert n)
      | _ => st.store p := by
  cases p <;>
    simp [updateState, adminState_store, memberState_store, removeState_store, scalarKey,
      setOkState_store_self, setOkState_store_ne]

theorem updateState_mem (st : DeviceState) (c : Config) (q : String) :
    q ∈ (updateState st c).members ↔
      q ∈ c.member_interface.map Prod.fst ∨
        (q ∈ st.members ∧ q ∉ c.member_interface_remove) := by
  simp [updateState, adminState_members, memberState_mem, removeState_mem, setOkState_members]

theorem updateState_get (st : DeviceState) (c : Config) (q : String) (qp : PortParam) :
    (updateState st c).portStore q qp =
      match portVal c.member_interface q qp with
      | some n => some n
      | Option.none => st.portStore q qp := by
  have h7 : (setOkState (setOkState (setOkState (setOkState (setOkState (setOkState
      (setOkState st Param.ageing_time c.aging) Param.forward_delay c.forwarding_delay)
      Param.hello_time c.hello_time) Param.max_age c.max_age) Param.priority c.priority)
      Param.stp (some (boolKey c.stp))) Param.multicast_querier
      (some (boolKey c.igmp_querier))).portStore = st.portStore := by
    simp [setOkState_portStore]
  simp [updateState, adminState_portStore, memberState_get, removeState_portStore, h7]

theorem updateState_adminCount (st : DeviceState) (c : Config) :
    (updateState st c).adminCount =
      if c.disable then st.adminCount - 1 else st.adminCount + 1 := by
  have h7 : (setOkState (setOkState (setOkState (setOkState (setOkState (setOkState
      (setOkState st Param.ageing_time c.aging) Param.forward_delay c.forwarding_delay)
      Param.hello_time c.hello_time) Param.max_age c.max_age) Param.priority c.priority)
      Param.stp (some (boolKey c.stp))) Param.multicast_querier
      (some (boolKey c.igmp_querier))).adminCount = st.adminCount := by
    simp [setOkState_adminCount]
  cases hd : c.disable <;>
    simp [updateState, adminState, set_admin_state, adminDir, hd,
      memberState_adminCount, removeState_adminCount, h7]

/-! ## Trace helpers -/

theorem isAdminSet_setOps (p : Param) (v : Option RawVal) (o : Op) (h : o ∈ setOps p v) :
    isAdminSet o = false := by
  cases v with
  | none => simp [setOps] at h
  | some raw =>
    cases raw with
    | intLike n =>
      simp only [setOps, List.mem_singleton] at h
      subst h; rfl
    | nonInt s => simp [setOps] at h

theorem isAdminSet_removeOps (ms : List String) (o : Op) (h : o ∈ removeOps ms) :
    isAdminSet o = false := by
  simp only [removeOps, List.mem_map] at h
  obtain ⟨port, -, rfl⟩ := h
  rfl

theorem isAdminSet_pathOps (port : String) (pp : PortParam) (v : Option RawVal) (o : Op)
    (h : o ∈ pathOps port pp v) : isAdminSet o = false := by
  cases v with
  | none => simp [pathOps] at h
  | some raw =>
    cases raw with
    | intLike n =>
      simp only [pathOps, List.mem_singleton] at h
      subst h; rfl
    | nonInt s => simp [pathOps] at h

theorem isAdminSet_memberOps (ms : List (String × PortConfig)) :
    ∀ o ∈ memberOps ms, isAdminSet o = false := by
  induction ms with
  | nil => intro o h; simp [memberOps] at h
  | cons hd rest ih =>
    intro o h
    obtain ⟨port, pc⟩ := hd
    simp only [memberOps, memberEntryOps, List.mem_cons, List.mem_append] at h
    rcases h with (rfl | rfl | hc | hp) | hr
    · rfl
    · rfl
    · exact isAdminSet_pathOps port PortParam.path_cost pc.cost o hc
    · exact isAdminSet_pathOps port PortParam.path_priority pc.priority o hp
    · exact ih o hr

/-- The trace of a pass splits into a setter part free of admin-state calls,
followed by the single final admin-state call. -/
theorem updateOps_decomp (c : Config) :
    ∃ pre, updateOps c = pre ++ [Op.adminSet (adminDir c)] ∧
      ∀ o ∈ pre, isAdminSet o = false := by
  refine ⟨setOps Param.ageing_time c.aging ++ (setOps Param.forward_delay c.forwarding_delay ++
    (setOps Param.hello_time c.hello_time ++ (setOps Param.max_age c.max_age ++
    (setOps Param.priority c.priority ++ (setOps Param.stp (some (boolKey c.stp)) ++
    (setOps Param.multicast_querier (some (boolKey c.igmp_querier)) ++
    (removeOps c.member_interface_remove ++ memberOps c.member_interface))))))), ?_, ?_⟩
  · simp [updateOps, List.append_assoc]
  · intro o h
    simp only [List.mem_append] at h
    rcases h with h | h | h | h | h | h | h | h | h
    · exact isAdminSet_setOps _ _ o h
    · exact isAdminSet_setOps _ _ o h
    · exact isAdminSet_setOps _ _ o h
    · exact isAdminSet_setOps _ _ o h
    · exact isAdminSet_setOps _ _ o h
    · exact isAdminSet_setOps _ _ o h
    · exact isAdminSet_setOps _ _ o h
    · exact isAdminSet_removeOps _ o h
    · exact isAdminSet_memberOps _ o h

theorem memberOps_portWrite (ms : List (String × PortConfig)) (port : String)
    (pc : PortConfig) (pp : PortParam) (n : Int)
    (hm : (port, pc) ∈ ms) (hv : entryVal pc pp = some n) :
    Op.portWrite port pp n ∈ memberOps ms := by
  induction ms with
  | nil => simp at hm
  | cons hd rest ih =>
    obtain ⟨q, qc⟩ := hd
    simp only [List.mem_cons] at hm
    rcases hm with he | hm
    · injection he with he1 he2
      subst he1; subst he2
      cases pp with
      | path_cost =>
        simp only [entryVal] at hv
        simp only [memberOps, memberEntryOps, List.mem_cons, List.mem_append]
        cases hc : pc.cost with
        | none => rw [hc] at hv; exact absurd hv (by simp)
        | some raw =>
          cases raw with
          | intLike m =>
            rw [hc] at hv
            simp only [Option.some.injEq] at hv
            subst hv
            simp [pathOps]
          | nonInt s => rw [hc] at hv; exact absurd hv (by simp)
      | path_priority =>
        simp only [entryVal] at hv
        simp only [memberOps, memberEntryOps, List.mem_cons, List.mem_append]
        cases hc : pc.priority with
        | none => rw [hc] at hv; exact absurd hv (by simp)
        | some raw =>
          cases raw with
          | intLike m =>
            rw [hc] at hv
            simp only [Option.some.injEq] at hv
            subst hv
            simp [pathOps]
          | nonInt s => rw [hc] at hv; exact absurd hv (by simp)
    · simp only [memberOps, List.mem_append]
      exact Or.inr (ih hm)

theorem validOpt_positive_shape (v : Option RawVal) (raw : RawVal)
    (hv : validOpt Validator.positive v = true) (hk : v = some raw) :
    ∃ n : Int, raw = RawVal.intLike n ∧ 0 < n := by
  subst hk
  cases raw with
  | intLike n =>
    refine ⟨n, rfl, ?_⟩
    simpa [validOpt, runValidator, assert_positive] using hv
  | nonInt s => simp [validOpt, runValidator, assert_positive] at hv

/-! ## Claims -/

/-- Claim C1: for the scenario DesiredConfig (forwarding_delay 15, member eth0
with cost 100, no disable key) the pass emits the forward_delay write, the
eth0 address flush, the eth0 attach, the eth0 path-cost write and the final
admin-state up call in exactly this relative order (the always-emitted
stp/querier writes interleave after the forward_delay write, as the spec
itself mandates in its steps 2-3); and for every DesiredConfig whose pass
completes, the set_admin_state call is the last operation of the trace,
strictly after every parameter write, flush, attach and detach. -/
theorem C1_ordering :
    (∃ ops : List Op,
       update emptyState cfgScenario =
         Except.ok (updateState emptyState cfgScenario, ops) ∧
       List.Sublist
         [Op.write (sysfs_set Param.forward_delay).location 1500,
          Op.flushAddrs ("eth0"), Op.attachPort ("eth0"),
          Op.portWrite ("eth0") PortParam.path_cost 100,
          Op.adminSet AdminDir.up] ops ∧
       ops.getLast? = some (Op.adminSet AdminDir.up)) ∧
    (∀ (st st2 : DeviceState) (c : Config) (ops : List Op),
       update st c = Except.ok (st2, ops) →
       ∃ pre, ops = pre ++ [Op.adminSet (adminDir c)] ∧
         ∀ o ∈ pre, isAdminSet o = false) := by
  constructor
  · exact ⟨updateOps cfgScenario, update_of_valid emptyState cfgScenario (by decide),
      by decide, by decide⟩
  · intro st st2 c ops h
    obtain ⟨-, hr⟩ := (update_ok_iff st c (st2, ops)).mp h
    injection hr with h1 h2
    rw [h2]
    exact updateOps_decomp c

/-- Witness for C1: the universal part applied to the scenario config from
the fresh device. -/
theorem C1_ordering_witness :
    ∃ pre, updateOps cfgScenario = pre ++ [Op.adminSet (adminDir cfgScenario)] ∧
      ∀ o ∈ pre, isAdminSet o = false :=
  C1_ordering.2 emptyState (updateState emptyState cfgScenario) cfgScenario
    (updateOps cfgScenario) (update_of_valid emptyState cfgScenario (by decide))

/-- Claim C2 counterexample: under the reference-count semantics of the spec
(up increments, down decrements with floor 0, device up iff count positive,
kernel bit changed on the 0-boundary transitions), the claim's concrete
scenario is false at the explicit input count 0: after down, down, up the
count is 1 but the device is administratively up, not down, and one further
up leaves the count at 2, not 0. -/
theorem C2_refcount_counterexample :
    ¬ (((adminState (adminState (adminState emptyState AdminDir.down) AdminDir.down)
          AdminDir.up).adminCount = 1 ∧
        (adminState (adminState (adminState emptyState AdminDir.down) AdminDir.down)
          AdminDir.up).kernelUp = false) ∧
       (adminState (adminState (adminState (adminState emptyState AdminDir.down)
          AdminDir.down) AdminDir.up) AdminDir.up).adminCount = 0) := by
  decide

/-- Claim C2 (amended): the admin-state reference count keeps the invariant
that the device is administratively up iff the count is positive; up
increments the count and down decrements it, never below 0 (the count is a
natural number and down at 0 stays 0); concretely, starting from count 0 the
sequence down, down, up leaves the count at 1 with the device
administratively up, and one further up brings the count to 2 with the
device still up. -/
theorem C2_refcount :
    (∀ (st : DeviceState) (dir : AdminDir),
       st.kernelUp = decide (0 < st.adminCount) →
       (adminState st dir).kernelUp = decide (0 < (adminState st dir).adminCount)) ∧
    (∀ st : DeviceState, (adminState st AdminDir.up).adminCount = st.adminCount + 1) ∧
    (∀ st : DeviceState, (adminState st AdminDir.down).adminCount = st.adminCount - 1) ∧
    ((adminState (adminState (adminState emptyState AdminDir.down) AdminDir.down)
        AdminDir.up).adminCount = 1 ∧
     (adminState (adminState (adminState emptyState AdminDir.down) AdminDir.down)
        AdminDir.up).kernelUp = true ∧
     (adminState (adminState (adminState (adminState emptyState AdminDir.down)
        AdminDir.down) AdminDir.up) AdminDir.up).adminCount = 2 ∧
     (adminState (adminState (adminState (adminState emptyState AdminDir.down)
        AdminDir.down) AdminDir.up) AdminDir.up).kernelUp = true) := by
  refine ⟨?_, fun st => rfl, fun st => rfl, by decide⟩
  intro st dir h
  cases dir with
  | up =>
    simp only [adminState, set_admin_state]
    by_cases h0 : st.adminCount = 0
    · simp [h0]
    · simp only [if_neg h0, h, decide_eq_decide]
      omega
  | down =>
    simp only [adminState, set_admin_state]
    by_cases h1 : st.adminCount = 1
    · simp [h1]
    · simp only [if_neg h1, h, decide_eq_decide]
      omega

/-- Witness for C2: the invariant-preservation part applied to the fresh
device and an up request. -/
theorem C2_refcount_witness :
    (adminState emptyState AdminDir.up).kernelUp =
      decide (0 < (adminState emptyState AdminDir.up).adminCount) :=
  C2_refcount.1 emptyState AdminDir.up (by decide)

/-- Claim C3: in a completed pass, for each of the five scalar parameters,
an absent key leaves the stored value untouched, and a present key is routed
to the corresponding setter, which writes the converted value to the store
and emits the corresponding property write. -/
theorem C3_scalar_skip (st : DeviceState) (c : Config) (st2 : DeviceState) (ops : List Op)
    (p : Param)
    (hupd : update st c = Except.ok (st2, ops))
    (hp : p = Param.ageing_time ∨ p = Param.forward_delay ∨ p = Param.hello_time ∨
          p = Param.max_age ∨ p = Param.priority) :
    (scalarKey c p = Option.none → st2.store p = st.store p) ∧
    (∀ raw, scalarKey c p = some raw →
       ∃ n : Int, raw = RawVal.intLike n ∧
         st2.store p = some ((sysfs_set p).convert n) ∧
         Op.write (sysfs_set p).location ((sysfs_set p).convert n) ∈ ops) := by
  obtain ⟨hv, hr⟩ := (update_ok_iff st c (st2, ops)).mp hupd
  injection hr with h1 h2
  subst h1
  subst h2
  simp only [validConfig, Bool.and_eq_true] at hv
  obtain ⟨⟨⟨⟨⟨hv1, hv2⟩, hv3⟩, hv4⟩, hv5⟩, -⟩ := hv
  constructor
  · intro habs
    rw [updateState_store, habs]
  · intro raw hk
    have hvp : validOpt Validator.positive (scalarKey c p) = true := by
      rcases hp with rfl | rfl | rfl | rfl | rfl
      · exact hv1
      · exact hv2
      · exact hv3
      · exact hv4
      · exact hv5
    obtain ⟨n, hraw, -⟩ := validOpt_positive_shape (scalarKey c p) raw hvp hk
    subst hraw
    refine ⟨n, rfl, ?_, ?_⟩
    · rw [updateState_store, hk]
    · rcases hp with rfl | rfl | rfl | rfl | rfl <;>
        (simp only [scalarKey] at hk; simp [updateOps, setOps, hk, List.mem_append])

/-- Witness for C3: the scenario config applied to the fresh device; the
hello_time key is absent and stays untouched, the forwarding_delay key is
present and is written converted. -/
theorem C3_scalar_skip_witness :
    ((scalarKey cfgScenario Param.hello_time = Option.none →
       (updateState emptyState cfgScenario).store Param.hello_time =
         emptyState.store Param.hello_time) ∧
     (∀ raw, scalarKey cfgScenario Param.hello_time = some raw →
       ∃ n : Int, raw = RawVal.intLike n ∧
         (updateState emptyState cfgScenario).store Param.hello_time =
           some ((sysfs_set Param.hello_time).convert n) ∧
         Op.write (sysfs_set Param.hello_time).location ((sysfs_set Param.hello_time).convert n) ∈
           updateOps cfgScenario)) ∧
    ((scalarKey cfgScenario Param.forward_delay = Option.none →
       (updateState emptyState cfgScenario).store Param.forward_delay =
         emptyState.store Param.forward_delay) ∧
     (∀ raw, scalarKey cfgScenario Param.forward_delay = some raw →
       ∃ n : Int, raw = RawVal.intLike n ∧
         (updateState emptyState cfgScenario).store Param.forward_delay =
           some ((sysfs_set Param.forward_delay).convert n) ∧
         Op.write (sysfs_set Param.forward_delay).location
           ((sysfs_set Param.forward_delay).convert n) ∈ updateOps cfgScenario)) :=
  ⟨C3_scalar_skip emptyState cfgScenario (updateState emptyState cfgScenario)
      (updateOps cfgScenario) Param.hello_time
      (update_of_valid emptyState cfgScenario (by decide)) (by decide),
   C3_scalar_skip emptyState cfgScenario (updateState emptyState cfgScenario)
      (updateOps cfgScenario) Param.forward_delay
      (update_of_valid emptyState cfgScenario (by decide)) (by decide)⟩

/-- Claim C4: every completed pass writes the stp state and the multicast
querier state, never skipping them; the stored stp value is enabled iff the
stp key is present and the querier value is enabled iff a non-null
igmp.querier value is present; in particular an absent stp key overwrites a
previously enabled stored STP state with disabled. -/
theorem C4_always_toggle (st : DeviceState) (c : Config) (st2 : DeviceState) (ops : List Op)
    (hupd : update st c = Except.ok (st2, ops)) :
    st2.store Param.stp = some (if c.stp then 1 else 0) ∧
    Op.write (sysfs_set Param.stp).location (if c.stp then 1 else 0) ∈ ops ∧
    st2.store Param.multicast_querier = some (if c.igmp_querier then 1 else 0) ∧
    Op.write (sysfs_set Param.multicast_querier).location
      (if c.igmp_querier then 1 else 0) ∈ ops := by
  obtain ⟨-, hr⟩ := (update_ok_iff st c (st2, ops)).mp hupd
  injection hr with h1 h2
  subst h1
  subst h2
  refine ⟨?_, ?_, ?_, ?_⟩
  · rw [updateState_store]
    rfl
  · cases hs : c.stp <;>
      simp [updateOps, setOps, boolKey, hs, List.mem_append, sysfs_set]
  · rw [updateState_store]
    rfl
  · cases hq : c.igmp_querier <;>
      simp [updateOps, setOps, boolKey, hq, List.mem_append, sysfs_set]

/-- Witness for C4: the scenario config (stp key absent) applied to a device
whose stored STP state was enabled: the pass stores stp disabled. -/
theorem C4_always_toggle_witness :
    (updateState stpOnState cfgScenario).store Param.stp =
      some (if cfgScenario.stp then 1 else 0) ∧
    Op.write (sysfs_set Param.stp).location (if cfgScenario.stp then 1 else 0) ∈
      updateOps cfgScenario ∧
    (updateState stpOnState cfgScenario).store Param.multicast_querier =
      some (if cfgScenario.igmp_querier then 1 else 0) ∧
    Op.write (sysfs_set Param.multicast_querier).location
      (if cfgScenario.igmp_querier then 1 else 0) ∈ updateOps cfgScenario :=
  C4_always_toggle stpOnState cfgScenario (updateState stpOnState cfgScenario)
    (updateOps cfgScenario) (update_of_valid stpOnState cfgScenario (by decide))

/-- Claim C5: for every positive integer t, each seconds-based timing setter
stores t*100 at the parameter's registry location and emits the
corresponding write, and the stored value divided by 100 is the input. -/
theorem C5_centiseconds (st : DeviceState) (p : Param) (t : Int)
    (hp : p = Param.ageing_time ∨ p = Param.forward_delay ∨ p = Param.hello_time ∨
          p = Param.max_age)
    (ht : 0 < t) :
    set_interface st p (some (RawVal.intLike t)) =
      Except.ok (writeStore st p (t * 100), [Op.write (sysfs_set p).location (t * 100)]) ∧
    (writeStore st p (t * 100)).store p = some (t * 100) ∧
    t * 100 / 100 = t := by
  refine ⟨?_, by simp [writeStore], Int.mul_ediv_cancel t (by norm_num)⟩
  rcases hp with rfl | rfl | rfl | rfl <;>
    simp [set_interface, runValidator, assert_positive, ht, sysfs_set]

/-- Witness for C5: forward_delay set to 15 stores 1500. -/
theorem C5_centiseconds_witness :
    (0:Int) < 15 ∧
    (set_interface emptyState Param.forward_delay (some (RawVal.intLike 15)) =
       Except.ok (writeStore emptyState Param.forward_delay (15 * 100),
         [Op.write (sysfs_set Param.forward_delay).location (15 * 100)]) ∧
     (writeStore emptyState Param.forward_delay (15 * 100)).store Param.forward_delay =
       some (15 * 100) ∧
     (15:Int) * 100 / 100 = 15) :=
  ⟨by decide,
   C5_centiseconds emptyState Param.forward_delay 15 (Or.inr (Or.inl rfl)) (by decide)⟩

/-- Claim C6: for every non-positive or non-integer input to a parameter
whose registry entry carries the positivity validator, the setter fails with
InvalidParameter naming that parameter and value; the error return carries
no state, so nothing is written to the property store (validation runs
before the conversion and the write in `set_interface`). -/
theorem C6_invalid_rejected (st : DeviceState) (p : Param) (raw : RawVal)
    (hval : (sysfs_set p).validate = Validator.positive)
    (hbad : nonPositiveInput raw = true) :
    set_interface st p (some raw) = Except.error (SetError.invalidParameter p raw) ∧
    ∀ r : DeviceState × List Op, set_interface st p (some raw) ≠ Except.ok r := by
  have he : set_interface st p (some raw) = Except.error (SetError.invalidParameter p raw) := by
    cases raw with
    | intLike n =>
      have hn : ¬ (0 < n) := by
        have := hbad
        simp only [nonPositiveInput, decide_eq_true_eq] at this
        omega
      simp [set_interface, runValidator, hval, assert_positive, hn]
    | nonInt s => rfl
  exact ⟨he, fun r hok => by rw [he] at hok; exact Except.noConfusion hok⟩

/-- Witness for C6: priority set to 0 is rejected with InvalidParameter. -/
theorem C6_invalid_rejected_witness :
    set_interface emptyState Param.priority (some (RawVal.intLike 0)) =
      Except.error (SetError.invalidParameter Param.priority (RawVal.intLike 0)) ∧
    ∀ r : DeviceState × List Op,
      set_interface emptyState Param.priority (some (RawVal.intLike 0)) ≠ Except.ok r :=
  C6_invalid_rejected emptyState Param.priority (RawVal.intLike 0) rfl (by decide)

/-- Claim C7: when the same port appears both in member.interface_remove and
in member.interface, a completed pass ends with the port attached, because
the removal loop runs before the addition loop in the fixed step order. -/
theorem C7_remove_readd (st : DeviceState) (c : Config) (st2 : DeviceState) (ops : List Op)
    (port : String) (pc : PortConfig)
    (hupd : update st c = Except.ok (st2, ops))
    (_hrm : port ∈ c.member_interface_remove)
    (hadd : (port, pc) ∈ c.member_interface) :
    port ∈ st2.members := by
  obtain ⟨-, hr⟩ := (update_ok_iff st c (st2, ops)).mp hupd
  injection hr with h1 h2
  subst h1
  rw [updateState_mem]
  exact Or.inl (List.mem_map_of_mem Prod.fst hadd)

/-- Witness for C7: the remove-and-re-add config for eth0 ends with eth0
attached. -/
theorem C7_remove_readd_witness :
    ("eth0") ∈ (updateState emptyState cfgReAdd).members :=
  C7_remove_readd emptyState cfgReAdd (updateState emptyState cfgReAdd)
    (updateOps cfgReAdd) ("eth0") ⟨Option.none, Option.none⟩
    (update_of_valid emptyState cfgReAdd (by decide)) (by decide) (by decide)

/-- Claim C8 counterexample: in a pass whose DesiredConfig has no stp key
(so the pass stores STP disabled), the per-port path-cost setter is still
applied: spanning tree being enabled on the parent device is not a
precondition for the path-cost/path-priority application. -/
theorem C8_counterexample :
    update emptyState cfgScenario =
      Except.ok (updateState emptyState cfgScenario, updateOps cfgScenario) ∧
    (updateState emptyState cfgScenario).store Param.stp = some 0 ∧
    Op.portWrite ("eth0") PortParam.path_cost 100 ∈ updateOps cfgScenario :=
  ⟨update_of_valid emptyState cfgScenario (by decide), by decide, by decide⟩

/-- Claim C8 (amended): the per-port path-cost and path-priority setters are
provided by the STP capability grafted onto the bridge class during every
pass, irrespective of whether spanning tree is enabled on the parent device;
for every joining port the cost and priority values of its port config are
applied with skip-on-absent semantics: a present integer value is written
for that port, and an absent value leads to no per-port write and leaves the
port's stored value unchanged. -/
theorem C8_path_setters (st : DeviceState) (c : Config) (st2 : DeviceState) (ops : List Op)
    (port : String) (pc : PortConfig)
    (hupd : update st c = Except.ok (st2, ops))
    (hmem : (port, pc) ∈ c.member_interface) :
    (∀ n : Int, pc.cost = some (RawVal.intLike n) →
       Op.portWrite port PortParam.path_cost n ∈ ops) ∧
    (∀ n : Int, pc.priority = some (RawVal.intLike n) →
       Op.portWrite port PortParam.path_priority n ∈ ops) ∧
    (∀ (st3 st4 : DeviceState) (ops4 : List Op), pc.cost = Option.none →
       updateMember st3 port pc = Except.ok (st4, ops4) →
       st4.portStore port PortParam.path_cost = st3.portStore port PortParam.path_cost ∧
       ∀ n : Int, Op.portWrite port PortParam.path_cost n ∉ ops4) ∧
    (∀ (st3 st4 : DeviceState) (ops4 : List Op), pc.priority = Option.none →
       updateMember st3 port pc = Except.ok (st4, ops4) →
       st4.portStore port PortParam.path_priority = st3.portStore port PortParam.path_priority ∧
       ∀ n : Int, Op.portWrite port PortParam.path_priority n ∉ ops4) := by
  obtain ⟨-, hr⟩ := (update_ok_iff st c (st2, ops)).mp hupd
  injection hr with h1 h2
  subst h2
  refine ⟨?_, ?_, ?_, ?_⟩
  · intro n hc
    have : Op.portWrite port PortParam.path_cost n ∈ memberOps c.member_interface :=
      memberOps_portWrite c.member_interface port pc PortParam.path_cost n hmem
        (by simp [entryVal, hc])
    simp [updateOps, List.mem_append, this]
  · intro n hpr
    have : Op.portWrite port PortParam.path_priority n ∈ memberOps c.member_interface :=
      memberOps_portWrite c.member_interface port pc PortParam.path_priority n hmem
        (by simp [entryVal, hpr])
    simp [updateOps, List.mem_append, this]
  · intro st3 st4 ops4 hc hok
    obtain ⟨-, hr4⟩ := (updateMember_ok_iff st3 port pc (st4, ops4)).mp hok
    injection hr4 with h4 h5
    subst h4
    subst h5
    constructor
    · rw [memberEntryState_get]
      simp [entryVal, hc]
    · intro n hmem2
      simp only [memberEntryOps, hc, pathOps, List.nil_append, List.mem_cons] at hmem2
      rcases hmem2 with he | he | hmem2
      · exact Op.noConfusion he
      · exact Op.noConfusion he
      · cases hpr2 : pc.priority with
        | none => rw [hpr2] at hmem2; simp [pathOps] at hmem2
        | some raw =>
          cases raw with
          | intLike m => rw [hpr2] at hmem2; simp [pathOps] at hmem2
          | nonInt s2 => rw [hpr2] at hmem2; simp [pathOps] at hmem2
  · intro st3 st4 ops4 hpr hok
    obtain ⟨-, hr4⟩ := (updateMember_ok_iff st3 port pc (st4, ops4)).mp hok
    injection hr4 with h4 h5
    subst h4
    subst h5
    constructor
    · rw [memberEntryState_get]
      simp [entryVal, hpr]
    · intro n hmem2
      simp only [memberEntryOps, hpr, pathOps, List.append_nil, List.mem_cons] at hmem2
      rcases hmem2 with he | he | hmem2
      · exact Op.noConfusion he
      · exact Op.noConfusion he
      · cases hc2 : pc.cost with
        | none => rw [hc2] at hmem2; simp [pathOps] at hmem2
        | some raw =>
          cases raw with
          | intLike m => rw [hc2] at hmem2; simp [pathOps] at hmem2
          | nonInt s2 => rw [hc2] at hmem2; simp [pathOps] at hmem2

/-- Witness for C8: in the scenario pass, eth0's present cost 100 is written
for eth0; the skip-on-absent part is exercised on a port config with both
values absent. -/
theorem C8_path_setters_witness :
    Op.portWrite ("eth0") PortParam.path_cost 100 ∈ updateOps cfgScenario ∧
    ((updateState emptyState cfgReAdd).portStore ("eth0") PortParam.path_cost =
       emptyState.portStore ("eth0") PortParam.path_cost) := by
  constructor
  · exact (C8_path_setters emptyState cfgScenario (updateState emptyState cfgScenario)
      (updateOps cfgScenario) ("eth0") ⟨some (RawVal.intLike 100), Option.none⟩
      (update_of_valid emptyState cfgScenario (by decide)) (by decide)).1 100 rfl
  · decide

/-- Claim C9 counterexample: applying the disable-only config twice is not
observationally the same as applying it once: from a device with admin
reference count 2 that is administratively up, one pass leaves the device up
(count 2 decrements to 1, still positive) while a second pass completes the
transition to down. -/
theorem C9_counterexample :
    update countTwoState cfgDisable =
      Except.ok (updateState countTwoState cfgDisable, updateOps cfgDisable) ∧
    update (updateState countTwoState cfgDisable) cfgDisable =
      Except.ok (updateState (updateState countTwoState cfgDisable) cfgDisable,
        updateOps cfgDisable) ∧
    (updateState countTwoState cfgDisable).kernelUp = true ∧
    (updateState (updateState countTwoState cfgDisable) cfgDisable).kernelUp = false :=
  ⟨update_of_valid countTwoState cfgDisable (by decide),
   update_of_valid (updateState countTwoState cfgDisable) cfgDisable (by decide),
   by decide, by decide⟩

/-- Claim C9 (amended): applying the same DesiredConfig twice in sequence
yields the same final membership set, the same stored bridge parameter
values and the same stored per-port values as applying it once, and the
second pass emits the identical trace; no parameter write or attach
compounds.  The admin-state reference count, however, advances one more step
on the second pass (decremented again under disable, incremented again
otherwise), so the admin-state component of the observable state can differ
between one and two applications. -/
theorem C9_idempotent_obs (st : DeviceState) (c : Config) (s1 : DeviceState) (ops1 : List Op)
    (s2 : DeviceState) (ops2 : List Op)
    (h1 : update st c = Except.ok (s1, ops1))
    (h2 : update s1 c = Except.ok (s2, ops2)) :
    (∀ p : Param, s2.store p = s1.store p) ∧
    (∀ (q : String) (qp : PortParam), s2.portStore q qp = s1.portStore q qp) ∧
    (∀ q : String, q ∈ s2.members ↔ q ∈ s1.members) ∧
    s2.adminCount = (if c.disable then s1.adminCount - 1 else s1.adminCount + 1) ∧
    ops2 = ops1 := by
  obtain ⟨-, hr1⟩ := (update_ok_iff st c (s1, ops1)).mp h1
  injection hr1 with e1 e2
  subst e1
  subst e2
  obtain ⟨-, hr2⟩ := (update_ok_iff (updateState st c) c (s2, ops2)).mp h2
  injection hr2 with e3 e4
  subst e3
  subst e4
  refine ⟨?_, ?_, ?_, updateState_adminCount (updateState st c) c, rfl⟩
  · intro p
    rw [updateState_store, updateState_store]
    cases hk : scalarKey c p with
    | none => rfl
    | some raw => cases raw <;> rfl
  · intro q qp
    rw [updateState_get, updateState_get]
    cases hk : portVal c.member_interface q qp <;> rfl
  · intro q
    simp only [updateState_mem]
    tauto

/-- Witness for C9: the scenario config applied twice to the fresh device. -/
theorem C9_idempotent_obs_witness :
    (∀ p : Param,
       (updateState (updateState emptyState cfgScenario) cfgScenario).store p =
         (updateState emptyState cfgScenario).store p) ∧
    (∀ (q : String) (qp : PortParam),
       (updateState (updateState emptyState cfgScenario) cfgScenario).portStore q qp =
         (updateState emptyState cfgScenario).portStore q qp) ∧
    (∀ q : String,
       q ∈ (updateState (updateState emptyState cfgScenario) cfgScenario).members ↔
         q ∈ (updateState emptyState cfgScenario).members) ∧
    (updateState (updateState emptyState cfgScenario) cfgScenario).adminCount =
      (if cfgScenario.disable then (updateState emptyState cfgScenario).adminCount - 1
       else (updateState emptyState cfgScenario).adminCount + 1) ∧
    updateOps cfgScenario = updateOps cfgScenario :=
  C9_idempotent_obs emptyState cfgScenario (updateState emptyState cfgScenario)
    (updateOps cfgScenario) (updateState (updateState emptyState cfgScenario) cfgScenario)
    (updateOps cfgScenario)
    (update_of_valid emptyState cfgScenario (by decide))
    (update_of_valid (updateState emptyState cfgScenario) cfgScenario (by decide))

/-- Claim C10: the trace of operations emitted by a completed pass is a
function of the DesiredConfig alone: two passes with the same config against
devices in arbitrary different prior states emit identical operation
sequences, with identical arguments in identical order. -/
theorem C10_state_independent (st1 st2 : DeviceState) (c : Config)
    (r1 r2 : DeviceState × List Op)
    (h1 : update st1 c = Except.ok r1) (h2 : update st2 c = Except.ok r2) :
    r1.2 = r2.2 := by
  obtain ⟨-, e1⟩ := (update_ok_iff st1 c r1).mp h1
  obtain ⟨-, e2⟩ := (update_ok_iff st2 c r2).mp h2
  rw [e1, e2]

/-- Witness for C10: the scenario config run from the fresh device and from
the count-two device emits the same trace. -/
theorem C10_state_independent_witness :
    (updateState emptyState cfgScenario, updateOps cfgScenario).2 =
      (updateState countTwoState cfgScenario, updateOps cfgScenario).2 :=
  C10_state_independent emptyState countTwoState cfgScenario
    (updateState emptyState cfgScenario, updateOps cfgScenario)
    (updateState countTwoState cfgScenario, updateOps cfgScenario)
    (update_of_valid emptyState cfgScenario (by decide))
    (update_of_valid countTwoState cfgScenario (by decide))

end VyosBridge
